import Mathlib

/-!
Verification of the `abi` JSON serializer (`serializer.go`) of
hyperledger/firefly-signer.

The serializer walks a decoded ABI value tree (`ComponentValue`) and produces
a JSON-compatible in-memory value, under pluggable strategies for integers,
floats, bytes, addresses and default field names, with three tuple layouts
(objects / flat arrays / self-describing arrays).

The Go source is embedded shallowly:
  * `*big.Int` becomes `Int`; `*big.Float` values are carried abstractly as
    `Rat` (no claim evaluates a float strategy);
  * Go `interface{}` JSON output values become the inductive `JsonValue`;
    a Go `map[string]interface{}` is modelled as an association list with
    replace-or-append insertion (`insertKV`), which is observationally the
    same as the Go map under key lookup (`lookupKV`);
  * fallible code returns the three-way result `SResult`: `ok`, a typed
    error (`err`, mirroring the i18n message keys), or `crash`, which models
    an uncontrolled Go runtime fault (a failed interface type assertion, or
    `big.Int.FillBytes` on a value that does not fit the 20-byte buffer).
-/

namespace Abi

/-! ## JSON output values (Go `interface{}` results of serialization) -/

/-- A JSON-compatible in-memory value, the `interface{}` output of the
serializer.  Numbers are carried exactly as rationals (a Go `float64` value
is always representable).  Objects carry their entries as an association
list; Go map semantics are recovered through `lookupKV`/`insertKV`. -/
inductive JsonValue : Type where
  | null : JsonValue
  | bool (b : Bool) : JsonValue
  | num (q : Rat) : JsonValue
  | str (s : String) : JsonValue
  | arr (xs : List JsonValue) : JsonValue
  | obj (kvs : List (String × JsonValue)) : JsonValue

/-- Go map lookup `m[k]` on the association-list model. -/
def lookupKV : List (String × JsonValue) → String → Option JsonValue
  | [], _ => none
  | (k, v) :: rest, k2 => if k = k2 then some v else lookupKV rest k2

/-- Go map assignment `m[k] = v` on the association-list model: replace the
existing binding in place, or append a new one. -/
def insertKV : List (String × JsonValue) → String → JsonValue → List (String × JsonValue)
  | [], k, v => [(k, v)]
  | (k1, v1) :: rest, k, v =>
    if k1 = k then (k, v) :: rest else (k1, v1) :: insertKV rest k v

/-! ## The decoded value tree (external data model)

Modelled from the spec: `ComponentValue`, its type descriptor (`Component`,
with `ComponentType()`, `ElementaryType()`, `KeyName()`, `String()`) and the
elementary kinds are declared elsewhere in the `abi` package (the type
system is an external collaborator of the serializer); the shapes below are
taken from the spec's data model and from how `serializer.go` consumes the
accessors. -/

/-- Modelled from the spec: the elementary (scalar) ABI kinds recognised by
the serializer.  The set is open in the source (the switch has a `default`
branch), which `other` represents. -/
inductive ElementaryType : Type where
  | int | uint | address | bool | fixed | ufixed | bytes | function | string
  | other (code : Int)
deriving DecidableEq

/-- Modelled from the spec: `ComponentType` is a Go integer enum with the
four known constants below plus the possibility of an unknown value. -/
def ElementaryComponent : Int := 0

def FixedArrayComponent : Int := 1

def DynamicArrayComponent : Int := 2

def TupleComponent : Int := 3

/-- Modelled from the spec: the type descriptor of a node, exposing exactly
the accessors `serializer.go` uses: `ComponentType()`, `ElementaryType()`,
`KeyName()` and the canonical type signature `String()`. -/
structure Component : Type where
  componentType : Int
  elementaryType : ElementaryType
  keyName : String
  typeString : String

/-- The dynamic shape of a decoded Go `interface{}` value held in
`ComponentValue.Value`: an arbitrary-precision integer, an
arbitrary-precision float (carried abstractly as a rational), a byte slice,
a string, or nil/anything else. -/
inductive GoValue : Type where
  | int (i : Int)
  | float (f : Rat)
  | bytes (b : List Nat)
  | str (s : String)
  | null

/-- Modelled from the spec: a node of the decoded ABI value tree, with an
optional type descriptor (`Component` is a nillable pointer in Go), the
decoded value, and the ordered children. -/
inductive ComponentValue : Type where
  | mk (component : Option Component) (value : GoValue)
      (children : List ComponentValue) : ComponentValue

def ComponentValue.component : ComponentValue → Option Component
  | .mk c _ _ => c

def ComponentValue.value : ComponentValue → GoValue
  | .mk _ v _ => v

def ComponentValue.children : ComponentValue → List ComponentValue
  | .mk _ _ ch => ch

/-! ## Typed errors and the three-way result -/

/-- The typed errors the serializer constructs (i18n message keys plus their
interpolated parameters, exactly as passed at each `i18n.NewError` site). -/
inductive GoError : Type where
  /-- `MsgBadABITypeComponent` raised in `walkOutput` for a node whose
  `Component` is nil; the parameter is the offending node. -/
  | badABITypeComponentValue (cv : ComponentValue)
  /-- `MsgBadABITypeComponent` raised in `walkOutput` for an unrecognised
  `ComponentType()`; the parameter is the offending descriptor. -/
  | badABITypeComponentKind (c : Component)
  /-- `MsgUnknownABIElementaryType`, carrying the unknown elementary kind
  and the breadcrumb path at the failure point. -/
  | unknownABIElementaryType (et : ElementaryType) (breadcrumbs : String)
  /-- `MsgUnknownTupleSerializer`, carrying the unrecognised formatting
  mode. -/
  | unknownTupleSerializer (mode : Int)

/-- Result of a serialization step: a value, a typed error, or `crash`,
which models an uncontrolled Go runtime fault (panic) such as a failed
interface type assertion. -/
inductive SResult (α : Type) : Type where
  | ok (v : α) : SResult α
  | err (e : GoError) : SResult α
  | crash (msg : String) : SResult α

/-! ## Machine-integer and byte-level helpers (Go semantics) -/

/-- Wrap an integer into the two's-complement `int64` range. -/
def wrapInt64 (n : Int) : Int := (n + 2 ^ 63) % 2 ^ 64 - 2 ^ 63

/-- Go `(*big.Int).Int64()`: the sign-applied low 64 bits of the magnitude,
reinterpreted two's-complement (this is what the Go implementation computes
when the receiver is outside the `int64` range). -/
def goBigIntInt64 (i : Int) : Int :=
  let u : Nat := i.natAbs % 2 ^ 64
  let v : Int := if u < 2 ^ 63 then (u : Int) else (u : Int) - 2 ^ 64
  wrapInt64 (if i < 0 then -v else v)

/-- Conversion of an `int64` value to an IEEE-754 double (round to nearest,
ties to even), returned as the exact integer the double represents.  For
`|n| ≤ 2^53` the conversion is exact. -/
def float64OfInt (n : Int) : Int :=
  if n.natAbs ≤ 2 ^ 53 then n
  else
    let a := n.natAbs
    let k := Nat.log2 a - 52
    let q := a / 2 ^ k
    let r := a % 2 ^ k
    let half := 2 ^ (k - 1)
    let q2 := if half < r ∨ (r = half ∧ q % 2 = 1) then q + 1 else q
    (if n < 0 then -1 else 1) * ((q2 : Int) * 2 ^ k)

/-- Big-endian, zero-left-padded byte rendering of `v` into `k` bytes
(the contents `big.Int.FillBytes` writes when the value fits). -/
def beBytes : Nat → Nat → List Nat
  | 0, _ => []
  | k + 1, v => (v / 256 ^ k) % 256 :: beBytes k (v % 256 ^ k)

/-- Lowercase hex digit. -/
def hexDigit (n : Nat) : Char :=
  if n < 10 then Char.ofNat (48 + n) else Char.ofNat (87 + (n - 10))

/-- Lowercase two-digit hex rendering of one byte (Go `hex.EncodeToString`
per byte). -/
def byteHex (n : Nat) : String :=
  String.mk [hexDigit (n / 16 % 16), hexDigit (n % 16)]

/-- Go `hex.EncodeToString`: lowercase hex, two digits per byte. -/
def hexEncodeToString (b : List Nat) : String :=
  String.join (b.map byteHex)

/-- Go `(*big.Int).String()`: exact base-10 decimal rendering, with a
leading minus sign for negative values. -/
def bigIntString (i : Int) : String :=
  (if i < 0 then "-" else "") ++ Nat.repr i.natAbs

/-! ## The `Serializer` policy set and the provided strategies -/

/-- The `Serializer` options bundle: formatting mode (a Go integer enum),
integer / float / byte strategies, default-name generator, optional address
strategy, and the pretty flag. -/
structure Serializer : Type where
  ts : Int
  is : Int → JsonValue
  fs : Rat → JsonValue
  bs : List Nat → JsonValue
  dn : Nat → String
  ad : Option (List Nat → JsonValue)
  pretty : Bool

/-- `FormatAsObjects` — field names become object keys. -/
def FormatAsObjects : Int := 0

/-- `FormatAsFlatArrays` — flat arrays of values. -/
def FormatAsFlatArrays : Int := 1

/-- `FormatAsSelfDescribingArrays` — arrays of name/type/value objects. -/
def FormatAsSelfDescribingArrays : Int := 2

/-- The IEEE-754-safe integer bound `9007199254740991`. -/
def maxSafeJSONNumberInt : Int := 9007199254740991

/-- The negated safe bound `-9007199254740991`. -/
def minSafeJSONNumberInt : Int := -9007199254740991

/-- `Base10StringIntSerializer`: `i.String()`. -/
def Base10StringIntSerializer (i : Int) : JsonValue :=
  .str (bigIntString i)

/-- `Base10StringFloatSerializer`: `f.String()`.  The precise `big.Float`
decimal rendering is external formatting; it is carried abstractly here (no
claim evaluates a float strategy). -/
def Base10StringFloatSerializer (f : Rat) : JsonValue :=
  .str (toString f)

/-- `NumberIfFitsOrBase10StringIntSerializer`: a native JSON number when the
value is inside the safe range, else the exact decimal string.  The Go body
is `float64(i.Int64())` on the in-range path. -/
def NumberIfFitsOrBase10StringIntSerializer (i : Int) : JsonValue :=
  if maxSafeJSONNumberInt < i ∨ i < minSafeJSONNumberInt then
    .str (bigIntString i)
  else
    .num ((float64OfInt (goBigIntInt64 i) : Int) : Rat)

/-- `HexByteSerializer`: lowercase hex without prefix. -/
def HexByteSerializer (b : List Nat) : JsonValue :=
  .str (hexEncodeToString b)

/-- `NumericDefaultNameGenerator`: the decimal string of the index. -/
def NumericDefaultNameGenerator (idx : Nat) : String :=
  Nat.repr idx

/-- `NewSerializer`: the default configuration (Objects mode, decimal-string
integers and floats, plain hex bytes, numeric default names, no address
strategy, compact output). -/
def NewSerializer : Serializer where
  ts := FormatAsObjects
  is := Base10StringIntSerializer
  fs := Base10StringFloatSerializer
  bs := HexByteSerializer
  dn := NumericDefaultNameGenerator
  ad := none
  pretty := false

/-! ## The elementary encoder -/

/-- `serializeElementaryType`: switch on the declared elementary kind,
with an unchecked Go type assertion on the decoded value at every branch
(`crash` when the dynamic shape mismatches), and the
`MsgUnknownABIElementaryType` typed error for an unrecognised kind. -/
def serializeElementaryType (s : Serializer) (breadcrumbs : String)
    (cv : ComponentValue) : SResult JsonValue :=
  match cv.component with
  | none => .crash "nil pointer dereference"
  | some c =>
    match c.elementaryType with
    | .int | .uint =>
      match cv.value with
      | .int i => .ok (s.is i)
      | _ => .crash "interface conversion"
    | .address =>
      match cv.value with
      | .int i =>
        if i.natAbs < 2 ^ 160 then
          let addr := beBytes 20 i.natAbs
          match s.ad with
          | none => .ok (s.bs addr)
          | some ad => .ok (ad addr)
        else .crash "FillBytes: buffer too small"
      | _ => .crash "interface conversion"
    | .bool =>
      match cv.value with
      | .int i => .ok (.bool (goBigIntInt64 i == 1))
      | _ => .crash "interface conversion"
    | .fixed | .ufixed =>
      match cv.value with
      | .float f => .ok (s.fs f)
      | _ => .crash "interface conversion"
    | .bytes | .function =>
      match cv.value with
      | .bytes b => .ok (s.bs b)
      | _ => .crash "interface conversion"
    | .string =>
      match cv.value with
      | .str t => .ok (.str t)
      | _ => .crash "interface conversion"
    | .other code =>
      .err (.unknownABIElementaryType (.other code) breadcrumbs)

/-! ## The tree walker, array encoder and tuple encoder -/

mutual

/-- `walkOutput`: dispatch on the node's component type; nil descriptor and
unknown variants give the `MsgBadABITypeComponent` typed error. -/
def walkOutput (s : Serializer) (breadcrumbs : String) (cv : ComponentValue) :
    SResult JsonValue :=
  match cv.component with
  | none => .err (.badABITypeComponentValue cv)
  | some c =>
    if c.componentType = ElementaryComponent then
      serializeElementaryType s breadcrumbs cv
    else if c.componentType = FixedArrayComponent ∨
        c.componentType = DynamicArrayComponent then
      serializeArray s breadcrumbs cv
    else if c.componentType = TupleComponent then
      serializeTuple s breadcrumbs cv
    else
      .err (.badABITypeComponentKind c)
termination_by (sizeOf cv, 2)

/-- `serializeArray`: ordered JSON array of the walked children, breadcrumb
extended with the positional index, fail-fast on the first child error. -/
def serializeArray (s : Serializer) (breadcrumbs : String)
    (cv : ComponentValue) : SResult JsonValue :=
  match cv with
  | .mk _ _ children =>
    match arrayItems s breadcrumbs 0 children with
    | .ok xs => .ok (.arr xs)
    | .err e => .err e
    | .crash m => .crash m
termination_by (sizeOf cv, 1)

/-- The loop body of `serializeArray`: walk each child with breadcrumb
`breadcrumbs[i]`, stopping at the first failure. -/
def arrayItems (s : Serializer) (breadcrumbs : String) (i : Nat) :
    List ComponentValue → SResult (List JsonValue)
  | [] => .ok []
  | c :: rest =>
    match walkOutput s (breadcrumbs ++ "[" ++ Nat.repr i ++ "]") c with
    | .ok v =>
      match arrayItems s breadcrumbs (i + 1) rest with
      | .ok vs => .ok (v :: vs)
      | .err e => .err e
      | .crash m => .crash m
    | .err e => .err e
    | .crash m => .crash m
termination_by cs => (sizeOf cs, 0)

/-- `serializeTuple`: the three layout modes selected by `s.ts`, with the
`MsgUnknownTupleSerializer` typed error for any other mode value. -/
def serializeTuple (s : Serializer) (breadcrumbs : String)
    (cv : ComponentValue) : SResult JsonValue :=
  match cv with
  | .mk _ _ children =>
    if s.ts = FormatAsObjects then
      match objectItems s breadcrumbs 0 children [] with
      | .ok m => .ok (.obj m)
      | .err e => .err e
      | .crash m => .crash m
    else if s.ts = FormatAsFlatArrays then
      match flatItems s breadcrumbs 0 children with
      | .ok xs => .ok (.arr xs)
      | .err e => .err e
      | .crash m => .crash m
    else if s.ts = FormatAsSelfDescribingArrays then
      match sdaItems s breadcrumbs 0 children with
      | .ok xs => .ok (.arr xs)
      | .err e => .err e
      | .crash m => .crash m
    else
      .err (.unknownTupleSerializer s.ts)
termination_by (sizeOf cv, 1)

/-- The Objects-mode loop of `serializeTuple`: children with a nil
descriptor are skipped; otherwise the name resolves to the declared key name
or the generated default, the child is walked with breadcrumb
`breadcrumbs[name]`, and the map entry is assigned (last write wins). -/
def objectItems (s : Serializer) (breadcrumbs : String) (i : Nat)
    (cs : List ComponentValue) (out : List (String × JsonValue)) :
    SResult (List (String × JsonValue)) :=
  match cs with
  | [] => .ok out
  | c :: rest =>
    match c.component with
    | none => objectItems s breadcrumbs (i + 1) rest out
    | some comp =>
      let name := if comp.keyName = "" then s.dn i else comp.keyName
      match walkOutput s (breadcrumbs ++ "[" ++ name ++ "]") c with
      | .ok v => objectItems s breadcrumbs (i + 1) rest (insertKV out name v)
      | .err e => .err e
      | .crash m => .crash m
termination_by (sizeOf cs, 0)

/-- The FlatArrays-mode loop of `serializeTuple` (textually identical to the
array loop in the source). -/
def flatItems (s : Serializer) (breadcrumbs : String) (i : Nat) :
    List ComponentValue → SResult (List JsonValue)
  | [] => .ok []
  | c :: rest =>
    match walkOutput s (breadcrumbs ++ "[" ++ Nat.repr i ++ "]") c with
    | .ok v =>
      match flatItems s breadcrumbs (i + 1) rest with
      | .ok vs => .ok (v :: vs)
      | .err e => .err e
      | .crash m => .crash m
    | .err e => .err e
    | .crash m => .crash m
termination_by cs => (sizeOf cs, 0)

/-- The SelfDescribingArrays-mode loop of `serializeTuple`: build the
`name`/`type` entries from the descriptor when present, substitute the
generated default name only when the stored name is the empty string (a
missing entry of the Go map compares unequal to `""`), walk the child with
the name-based breadcrumb, then assign `value`. -/
def sdaItems (s : Serializer) (breadcrumbs : String) (i : Nat) :
    List ComponentValue → SResult (List JsonValue)
  | [] => .ok []
  | c :: rest =>
    let vm1 : List (String × JsonValue) :=
      match c.component with
      | some comp =>
        insertKV (insertKV [] "name" (.str comp.keyName)) "type"
          (.str comp.typeString)
      | none => []
    let vm2 : List (String × JsonValue) :=
      match lookupKV vm1 "name" with
      | some (.str n) =>
        if n = "" then insertKV vm1 "name" (.str (s.dn i)) else vm1
      | _ => vm1
    let bcName : String :=
      match lookupKV vm2 "name" with
      | some (.str n) => n
      | _ => "%!s(<nil>)"
    match walkOutput s (breadcrumbs ++ "[" ++ bcName ++ "]") c with
    | .ok v =>
      match sdaItems s breadcrumbs (i + 1) rest with
      | .ok xs => .ok (.obj (insertKV vm2 "value" v) :: xs)
      | .err e => .err e
      | .crash m => .crash m
    | .err e => .err e
    | .crash m => .crash m
termination_by cs => (sizeOf cs, 0)

end

/-- `SerializeInterfaceCtx`: walk from the root with an empty breadcrumb. -/
def SerializeInterfaceCtx (s : Serializer) (cv : ComponentValue) :
    SResult JsonValue :=
  walkOutput s "" cv

/-- `SerializeJSONCtx`: walk, and on error return the error with no bytes.
The byte-level rendering (`encoding/json` marshalling) is an external
collaborator and is not modelled; the produced value tree stands for the
marshalled output. -/
def SerializeJSONCtx (s : Serializer) (cv : ComponentValue) :
    SResult JsonValue :=
  match walkOutput s "" cv with
  | .ok v => .ok v
  | .err e => .err e
  | .crash m => .crash m

/-! ## Specification-side definitions used to state the claims -/

/-- The dynamic value shape each recognised elementary kind's type assertion
requires (`true` for unrecognised kinds, where no assertion is reached). -/
def kindShapeOK : ElementaryType → GoValue → Bool
  | .int, .int _ => true
  | .uint, .int _ => true
  | .address, .int _ => true
  | .bool, .int _ => true
  | .fixed, .float _ => true
  | .ufixed, .float _ => true
  | .bytes, .bytes _ => true
  | .function, .bytes _ => true
  | .string, .str _ => true
  | .other _, _ => true
  | _, _ => false

/-- The field name the named tuple modes resolve for child `i`: the declared
key name, or the generated default when the declared name is empty. -/
def resolvedName (s : Serializer) (i : Nat) (comp : Component) : String :=
  if comp.keyName = "" then s.dn i else comp.keyName

/-- Specification of the Objects-mode output as a lookup function, scanning
the children from the right so that the last assignment to a name wins:
the value for `name` is the latest child whose descriptor is non-nil and
whose resolved name is `name`; nil-descriptor children are transparent. -/
def objSpecLookup (s : Serializer) (breadcrumbs : String) (i : Nat) :
    List ComponentValue → String → Option JsonValue
  | [], _ => none
  | c :: rest, name =>
    match objSpecLookup s breadcrumbs (i + 1) rest name with
    | some v => some v
    | none =>
      match c.component with
      | none => none
      | some comp =>
        if resolvedName s i comp = name then
          match walkOutput s (breadcrumbs ++ "[" ++ name ++ "]") c with
          | .ok v => some v
          | _ => none
        else none

/-! ## Helper lemmas -/

theorem goBigIntInt64_of_small (i : Int) (h : i.natAbs < 2 ^ 63) :
    goBigIntInt64 i = i := by
  simp only [goBigIntInt64, wrapInt64]
  rw [Nat.mod_eq_of_lt (show i.natAbs < 2 ^ 64 by omega)]
  rw [if_pos h]
  split_ifs with hneg <;> omega

theorem float64OfInt_of_small (i : Int) (h : i.natAbs ≤ 2 ^ 53) :
    float64OfInt i = i := by
  simp only [float64OfInt]
  rw [if_pos h]

theorem beBytes_length (k : Nat) : ∀ n : Nat, (beBytes k n).length = k := by
  induction k with
  | zero => intro n; simp [beBytes]
  | succ k ih => intro n; simp [beBytes, ih]

theorem beBytes_foldl (k : Nat) : ∀ n a : Nat, n < 256 ^ k →
    (beBytes k n).foldl (fun x b => x * 256 + b) a = a * 256 ^ k + n := by
  induction k with
  | zero =>
    intro n a h
    simp [beBytes]
    omega
  | succ k ih =>
    intro n a h
    have hlt : n % 256 ^ k < 256 ^ k := Nat.mod_lt _ (Nat.pos_pow_of_pos k (by omega))
    have hdiv : n / 256 ^ k < 256 := by
      apply Nat.div_lt_of_lt_mul
      rw [show 256 ^ k * 256 = 256 ^ (k + 1) from by ring]
      exact h
    simp only [beBytes, List.foldl_cons]
    rw [ih (n % 256 ^ k) _ hlt]
    rw [Nat.mod_eq_of_lt hdiv]
    have := Nat.div_add_mod n (256 ^ k)
    have h256 : 256 ^ (k + 1) = 256 ^ k * 256 := by ring
    nlinarith [this]

theorem flatItems_eq_arrayItems (s : Serializer) (brd : String) :
    ∀ (cs : List ComponentValue) (i : Nat),
      flatItems s brd i cs = arrayItems s brd i cs := by
  intro cs
  induction cs with
  | nil => intro i; simp [flatItems, arrayItems]
  | cons c rest ih => intro i; simp only [flatItems, arrayItems, ih]

theorem lookupKV_insertKV (m : List (String × JsonValue)) (k k2 : String)
    (v : JsonValue) :
    lookupKV (insertKV m k v) k2 = if k = k2 then some v else lookupKV m k2 := by
  induction m with
  | nil => simp [insertKV, lookupKV]
  | cons kv rest ih =>
    obtain ⟨k1, v1⟩ := kv
    by_cases h1 : k1 = k
    · subst h1
      by_cases h2 : k1 = k2 <;> simp [insertKV, lookupKV, h2]
    · by_cases h2 : k1 = k2
      · subst h2
        have : k ≠ k1 := fun hc => h1 hc.symm
        simp [insertKV, lookupKV, h1, this]
      · simp [insertKV, lookupKV, h1, h2, ih]

theorem arrayItems_err (s : Serializer) (brd : String) :
    ∀ (cs : List ComponentValue) (i0 k : Nat) (e : GoError)
      (ck : ComponentValue), cs[k]? = some ck →
      walkOutput s (brd ++ "[" ++ Nat.repr (i0 + k) ++ "]") ck = .err e →
      (∀ j cj, j < k → cs[j]? = some cj →
        ∃ v, walkOutput s (brd ++ "[" ++ Nat.repr (i0 + j) ++ "]") cj = .ok v) →
      arrayItems s brd i0 cs = .err e := by
  intro cs
  induction cs with
  | nil => intro i0 k e ck hget; simp at hget
  | cons c rest ih =>
    intro i0 k e ck hget hfail hbefore
    match k with
    | 0 =>
      rw [List.getElem?_cons_zero] at hget
      injection hget with hck
      subst hck
      rw [Nat.add_zero] at hfail
      simp only [arrayItems, hfail]
    | k' + 1 =>
      rw [List.getElem?_cons_succ] at hget
      obtain ⟨v, hv⟩ := hbefore 0 c (Nat.succ_pos _) List.getElem?_cons_zero
      rw [Nat.add_zero] at hv
      have htail : arrayItems s brd (i0 + 1) rest = .err e := by
        apply ih (i0 + 1) k' e ck hget
        · rw [show i0 + 1 + k' = i0 + (k' + 1) from by omega]
          exact hfail
        · intro j cj hj hgj
          rw [show i0 + 1 + j = i0 + (j + 1) from by omega]
          exact hbefore (j + 1) cj (by omega) (by rwa [List.getElem?_cons_succ])
      simp only [arrayItems, hv, htail]

theorem objectItems_err (s : Serializer) (brd : String) :
    ∀ (cs : List ComponentValue) (i0 k : Nat)
      (acc : List (String × JsonValue)) (e : GoError) (ck : ComponentValue)
      (compk : Component), cs[k]? = some ck → ck.component = some compk →
      walkOutput s (brd ++ "[" ++ resolvedName s (i0 + k) compk ++ "]") ck =
        .err e →
      (∀ j cj compj, j < k → cs[j]? = some cj → cj.component = some compj →
        ∃ v, walkOutput s (brd ++ "[" ++ resolvedName s (i0 + j) compj ++ "]")
          cj = .ok v) →
      objectItems s brd i0 cs acc = .err e := by
  intro cs
  induction cs with
  | nil => intro i0 k acc e ck compk hget; simp at hget
  | cons c rest ih =>
    intro i0 k acc e ck compk hget hcomp hfail hbefore
    match k with
    | 0 =>
      rw [List.getElem?_cons_zero] at hget
      injection hget with hck
      subst hck
      rw [Nat.add_zero] at hfail
      simp only [objectItems, hcomp, resolvedName] at hfail ⊢
      rw [hfail]
    | k' + 1 =>
      rw [List.getElem?_cons_succ] at hget
      have htail : ∀ acc2, objectItems s brd (i0 + 1) rest acc2 = .err e := by
        intro acc2
        apply ih (i0 + 1) k' acc2 e ck compk hget hcomp
        · rw [show i0 + 1 + k' = i0 + (k' + 1) from by omega]
          exact hfail
        · intro j cj compj hj hgj hcj
          rw [show i0 + 1 + j = i0 + (j + 1) from by omega]
          exact hbefore (j + 1) cj compj (by omega)
            (by rwa [List.getElem?_cons_succ]) hcj
      match hcc : c.component with
      | none => simp only [objectItems, hcc, htail]
      | some comp =>
        obtain ⟨v, hv⟩ := hbefore 0 c comp (Nat.succ_pos _)
          List.getElem?_cons_zero hcc
        rw [Nat.add_zero] at hv
        simp only [objectItems, hcc, resolvedName] at hv ⊢
        rw [hv]
        exact htail _

theorem sdaItems_cons_some (s : Serializer) (brd : String) (i : Nat)
    (c : ComponentValue) (rest : List ComponentValue) (comp : Component)
    (hcc : c.component = some comp) :
    sdaItems s brd i (c :: rest) =
      (match walkOutput s (brd ++ "[" ++ resolvedName s i comp ++ "]") c with
       | .ok v =>
         match sdaItems s brd (i + 1) rest with
         | .ok xs =>
           .ok (.obj [("name", .str (resolvedName s i comp)),
             ("type", .str comp.typeString), ("value", v)] :: xs)
         | .err e => .err e
         | .crash m => .crash m
       | .err e => .err e
       | .crash m => .crash m) := by
  by_cases hkn : comp.keyName = "" <;>
    simp [sdaItems, hcc, insertKV, lookupKV, resolvedName, hkn]

theorem sdaItems_cons_none (s : Serializer) (brd : String) (i : Nat)
    (c : ComponentValue) (rest : List ComponentValue)
    (hcc : c.component = none) :
    sdaItems s brd i (c :: rest) = .err (.badABITypeComponentValue c) := by
  simp [sdaItems, hcc, lookupKV, walkOutput]

theorem sdaItems_err (s : Serializer) (brd : String) :
    ∀ (cs : List ComponentValue) (i0 k : Nat) (e : GoError)
      (ck : ComponentValue) (compk : Component),
      cs[k]? = some ck → ck.component = some compk →
      walkOutput s (brd ++ "[" ++ resolvedName s (i0 + k) compk ++ "]") ck =
        .err e →
      (∀ j cj, j < k → cs[j]? = some cj →
        ∃ compj, cj.component = some compj ∧
          ∃ v, walkOutput s (brd ++ "[" ++ resolvedName s (i0 + j) compj ++ "]")
            cj = .ok v) →
      sdaItems s brd i0 cs = .err e := by
  intro cs
  induction cs with
  | nil => intro i0 k e ck compk hget; simp at hget
  | cons c rest ih =>
    intro i0 k e ck compk hget hcomp hfail hbefore
    match k with
    | 0 =>
      rw [List.getElem?_cons_zero] at hget
      injection hget with hck
      subst hck
      rw [Nat.add_zero] at hfail
      rw [sdaItems_cons_some s brd i0 c rest compk hcomp, hfail]
    | k' + 1 =>
      rw [List.getElem?_cons_succ] at hget
      obtain ⟨comp, hcc, v, hv⟩ := hbefore 0 c (Nat.succ_pos _)
        List.getElem?_cons_zero
      rw [Nat.add_zero] at hv
      have htail : sdaItems s brd (i0 + 1) rest = .err e := by
        apply ih (i0 + 1) k' e ck compk hget hcomp
        · rw [show i0 + 1 + k' = i0 + (k' + 1) from by omega]
          exact hfail
        · intro j cj hj hgj
          rw [show i0 + 1 + j = i0 + (j + 1) from by omega]
          exact hbefore (j + 1) cj (by omega) (by rwa [List.getElem?_cons_succ])
      rw [sdaItems_cons_some s brd i0 c rest comp hcc, hv, htail]

/-! ## Claim C2 -/

/-- C2: the safe-range integer strategy
(`NumberIfFitsOrBase10StringIntSerializer`) yields a native JSON number
numerically equal to `i` whenever `|i| ≤ 9007199254740991`, and the exact
base-10 decimal string of `i` whenever `|i| > 9007199254740991`. -/
theorem c2_safe_range_int_strategy (i : Int) :
    (i.natAbs ≤ 9007199254740991 →
      NumberIfFitsOrBase10StringIntSerializer i = .num ((i : Int) : Rat)) ∧
    (9007199254740991 < i.natAbs →
      NumberIfFitsOrBase10StringIntSerializer i = .str (bigIntString i)) := by
  constructor
  · intro h
    unfold NumberIfFitsOrBase10StringIntSerializer
    rw [if_neg (by
      simp only [maxSafeJSONNumberInt, minSafeJSONNumberInt, not_or]
      omega)]
    rw [goBigIntInt64_of_small i (by omega), float64OfInt_of_small i (by omega)]
  · intro h
    unfold NumberIfFitsOrBase10StringIntSerializer
    rw [if_pos (by
      simp only [maxSafeJSONNumberInt, minSafeJSONNumberInt]
      omega)]

/-- C2 witness: the strategy at the largest safe integer, just above it, and
a small negative value. -/
theorem c2_safe_range_int_strategy_witness :
    NumberIfFitsOrBase10StringIntSerializer 9007199254740991 =
      .num ((9007199254740991 : Int) : Rat) ∧
    NumberIfFitsOrBase10StringIntSerializer (-42) = .num ((-42 : Int) : Rat) ∧
    NumberIfFitsOrBase10StringIntSerializer 9007199254740992 =
      .str (bigIntString 9007199254740992) :=
  ⟨(c2_safe_range_int_strategy 9007199254740991).1 (by norm_num),
   (c2_safe_range_int_strategy (-42)).1 (by norm_num),
   (c2_safe_range_int_strategy 9007199254740992).2 (by norm_num)⟩

/-! ## Claim C8 -/

/-- C8: for every `FormattingMode` value other than the three recognised
constants, the tuple encoder returns the `UnknownTupleSerializer` typed
error carrying the mode (in particular it neither panics nor produces a
value). -/
theorem c8_unknown_formatting_mode (s : Serializer) (brd : String)
    (cv : ComponentValue) (h0 : s.ts ≠ FormatAsObjects)
    (h1 : s.ts ≠ FormatAsFlatArrays)
    (h2 : s.ts ≠ FormatAsSelfDescribingArrays) :
    serializeTuple s brd cv = .err (.unknownTupleSerializer s.ts) := by
  cases cv with
  | mk comp val children =>
    simp only [serializeTuple]
    rw [if_neg h0, if_neg h1, if_neg h2]

/-- C8 witness: mode `7` on a childless tuple node. -/
theorem c8_unknown_formatting_mode_witness :
    serializeTuple { NewSerializer with ts := 7 } ""
        (.mk (some ⟨TupleComponent, .other 0, "", "()"⟩) .null []) =
      .err (.unknownTupleSerializer 7) :=
  c8_unknown_formatting_mode _ _ _ (by decide) (by decide) (by decide)

/-! ## Claim C10 -/

/-- C10: in `FormatAsFlatArrays` mode the tuple encoder and the array
encoder are the same function of the node — identical value, error and
breadcrumb behaviour. -/
theorem c10_flat_tuple_equals_array (s : Serializer) (brd : String)
    (cv : ComponentValue) (h : s.ts = FormatAsFlatArrays) :
    serializeTuple s brd cv = serializeArray s brd cv := by
  cases cv with
  | mk comp val children =>
    simp only [serializeTuple, serializeArray, h]
    rw [if_neg (by simp [FormatAsObjects, FormatAsFlatArrays]), if_pos trivial]
    simp only [flatItems_eq_arrayItems]

/-- C10 witness: a concrete two-field tuple in flat mode. -/
theorem c10_flat_tuple_equals_array_witness :
    serializeTuple { NewSerializer with ts := FormatAsFlatArrays } ""
        (.mk (some ⟨TupleComponent, .other 0, "", "(uint256,uint256)"⟩) .null
          [.mk (some ⟨ElementaryComponent, .uint, "a", "uint256"⟩) (.int 1) [],
           .mk (some ⟨ElementaryComponent, .uint, "", "uint256"⟩) (.int 2) []]) =
      serializeArray { NewSerializer with ts := FormatAsFlatArrays } ""
        (.mk (some ⟨TupleComponent, .other 0, "", "(uint256,uint256)"⟩) .null
          [.mk (some ⟨ElementaryComponent, .uint, "a", "uint256"⟩) (.int 1) [],
           .mk (some ⟨ElementaryComponent, .uint, "", "uint256"⟩) (.int 2) []]) :=
  c10_flat_tuple_equals_array _ _ _ rfl

/-! ## Claim C7 -/

/-- C7: in every walk — arrays and all three tuple modes — the first child
error aborts the walk and is returned unchanged (element errors propagate
with the breadcrumb they were constructed with, and siblings after the
failure are never consulted), and `SerializeJSONCtx` returns the error with
no partial value (`err` carries nothing). -/
theorem c7_first_error_propagates (s : Serializer) (brd : String)
    (cv : ComponentValue) (e : GoError) :
    (∀ k ck, cv.children[k]? = some ck →
      walkOutput s (brd ++ "[" ++ Nat.repr k ++ "]") ck = .err e →
      (∀ j cj, j < k → cv.children[j]? = some cj →
        ∃ v, walkOutput s (brd ++ "[" ++ Nat.repr j ++ "]") cj = .ok v) →
      serializeArray s brd cv = .err e) ∧
    (s.ts = FormatAsFlatArrays → ∀ k ck, cv.children[k]? = some ck →
      walkOutput s (brd ++ "[" ++ Nat.repr k ++ "]") ck = .err e →
      (∀ j cj, j < k → cv.children[j]? = some cj →
        ∃ v, walkOutput s (brd ++ "[" ++ Nat.repr j ++ "]") cj = .ok v) →
      serializeTuple s brd cv = .err e) ∧
    (s.ts = FormatAsObjects → ∀ k ck compk, cv.children[k]? = some ck →
      ck.component = some compk →
      walkOutput s (brd ++ "[" ++ resolvedName s k compk ++ "]") ck = .err e →
      (∀ j cj compj, j < k → cv.children[j]? = some cj →
        cj.component = some compj →
        ∃ v, walkOutput s (brd ++ "[" ++ resolvedName s j compj ++ "]") cj =
          .ok v) →
      serializeTuple s brd cv = .err e) ∧
    (s.ts = FormatAsSelfDescribingArrays → ∀ k ck compk,
      cv.children[k]? = some ck → ck.component = some compk →
      walkOutput s (brd ++ "[" ++ resolvedName s k compk ++ "]") ck = .err e →
      (∀ j cj, j < k → cv.children[j]? = some cj →
        ∃ compj, cj.component = some compj ∧
          ∃ v, walkOutput s (brd ++ "[" ++ resolvedName s j compj ++ "]") cj =
            .ok v) →
      serializeTuple s brd cv = .err e) ∧
    (walkOutput s "" cv = .err e → SerializeJSONCtx s cv = .err e) := by
  obtain ⟨co, val, children⟩ := cv
  refine ⟨?_, ?_, ?_, ?_, ?_⟩
  · intro k ck hget hfail hbefore
    simp only [ComponentValue.children] at hget hbefore
    have h : arrayItems s brd 0 children = .err e := by
      apply arrayItems_err s brd children 0 k e ck hget
      · simpa using hfail
      · intro j cj hj hgj
        simpa using hbefore j cj hj hgj
    simp only [serializeArray, h]
  · intro hm k ck hget hfail hbefore
    simp only [ComponentValue.children] at hget hbefore
    have h : arrayItems s brd 0 children = .err e := by
      apply arrayItems_err s brd children 0 k e ck hget
      · simpa using hfail
      · intro j cj hj hgj
        simpa using hbefore j cj hj hgj
    simp only [serializeTuple, hm]
    rw [if_neg (by decide), if_pos trivial, flatItems_eq_arrayItems, h]
  · intro hm k ck compk hget hcomp hfail hbefore
    simp only [ComponentValue.children] at hget hbefore
    have h : objectItems s brd 0 children [] = .err e := by
      apply objectItems_err s brd children 0 k [] e ck compk hget hcomp
      · simpa using hfail
      · intro j cj compj hj hgj hcj
        simpa using hbefore j cj compj hj hgj hcj
    simp only [serializeTuple, hm]
    rw [if_pos trivial, h]
  · intro hm k ck compk hget hcomp hfail hbefore
    simp only [ComponentValue.children] at hget hbefore
    have h : sdaItems s brd 0 children = .err e := by
      apply sdaItems_err s brd children 0 k e ck compk hget hcomp
      · simpa using hfail
      · intro j cj hj hgj
        simpa using hbefore j cj hj hgj
    simp only [serializeTuple, hm]
    rw [if_neg (by decide), if_neg (by decide), if_pos trivial, h]
  · intro h
    simp only [SerializeJSONCtx, h]

/-- C7 witness: a one-element array whose element has an unknown elementary
kind; the element's typed error (with its breadcrumb) is returned as-is by
the array encoder and by `SerializeJSONCtx`. -/
theorem c7_first_error_propagates_witness :
    serializeArray NewSerializer ""
        (.mk (some ⟨DynamicArrayComponent, .other 0, "", "weird[]"⟩) .null
          [.mk (some ⟨ElementaryComponent, .other 99, "f", "weird"⟩) .null []]) =
      .err (.unknownABIElementaryType (.other 99) "[0]") ∧
    SerializeJSONCtx NewSerializer
        (.mk (some ⟨DynamicArrayComponent, .other 0, "", "weird[]"⟩) .null
          [.mk (some ⟨ElementaryComponent, .other 99, "f", "weird"⟩) .null []]) =
      .err (.unknownABIElementaryType (.other 99) "[0]") := by
  have harr := (c7_first_error_propagates NewSerializer ""
    (.mk (some ⟨DynamicArrayComponent, .other 0, "", "weird[]"⟩) .null
      [.mk (some ⟨ElementaryComponent, .other 99, "f", "weird"⟩) .null []])
    (.unknownABIElementaryType (.other 99) "[0]")).1 0
    (.mk (some ⟨ElementaryComponent, .other 99, "f", "weird"⟩) .null [])
    rfl
    (by
      simp only [walkOutput, serializeElementaryType, ComponentValue.component,
        ComponentValue.value, ElementaryComponent]
      rfl)
    (by intro j cj hj; omega)
  refine ⟨harr, ?_⟩
  apply (c7_first_error_propagates NewSerializer ""
    (.mk (some ⟨DynamicArrayComponent, .other 0, "", "weird[]"⟩) .null
      [.mk (some ⟨ElementaryComponent, .other 99, "f", "weird"⟩) .null []])
    (.unknownABIElementaryType (.other 99) "[0]")).2.2.2.2
  rw [← harr]
  simp only [walkOutput, ComponentValue.component, DynamicArrayComponent,
    ElementaryComponent, FixedArrayComponent]
  rfl

/-! ## Claim C9 -/

/-- C9: walking an array of tuples in the named Objects mode, a failure in
field `fieldName` of element 0 surfaces with breadcrumb `[0][fieldName]`:
the array encoder extends the path with the positional index and the named
tuple mode extends it with the resolved field name.  The failing field here
is one with an unrecognised elementary kind, the error site that records
the breadcrumb. -/
theorem c9_array_of_tuples_breadcrumb (s : Serializer) (cv t fk : ComponentValue)
    (ac tc fc : Component) (k : Nat) (code : Int)
    (hac : cv.component = some ac)
    (hact : ac.componentType = FixedArrayComponent ∨
      ac.componentType = DynamicArrayComponent)
    (h0 : cv.children[0]? = some t)
    (htc : t.component = some tc) (htct : tc.componentType = TupleComponent)
    (hm : s.ts = FormatAsObjects)
    (hk : t.children[k]? = some fk) (hfc : fk.component = some fc)
    (hfct : fc.componentType = ElementaryComponent)
    (hfk : fc.elementaryType = .other code)
    (hbefore : ∀ j cj compj, j < k → t.children[j]? = some cj →
      cj.component = some compj →
      ∃ v, walkOutput s ("[0]" ++ "[" ++ resolvedName s j compj ++ "]") cj =
        .ok v) :
    SerializeInterfaceCtx s cv =
      .err (.unknownABIElementaryType (.other code)
        ("[0]" ++ "[" ++ resolvedName s k fc ++ "]")) := by
  have hwalkfk : walkOutput s ("[0]" ++ "[" ++ resolvedName s k fc ++ "]") fk =
      .err (.unknownABIElementaryType (.other code)
        ("[0]" ++ "[" ++ resolvedName s k fc ++ "]")) := by
    obtain ⟨fco, fval, fch⟩ := fk
    simp only [ComponentValue.component] at hfc
    subst hfc
    obtain ⟨fct, fet, fkn, fts⟩ := fc
    simp only at hfct hfk
    subst hfct
    subst hfk
    simp only [walkOutput, ComponentValue.component]
    rw [if_pos trivial]
    simp only [serializeElementaryType, ComponentValue.component]
  obtain ⟨tco, tval, tch⟩ := t
  simp only [ComponentValue.component] at htc
  subst htc
  simp only [ComponentValue.children] at hk hbefore
  have hobj : objectItems s "[0]" 0 tch [] =
      .err (.unknownABIElementaryType (.other code)
        ("[0]" ++ "[" ++ resolvedName s k fc ++ "]")) := by
    apply objectItems_err s "[0]" tch 0 k [] _ fk fc hk hfc
    · simpa using hwalkfk
    · intro j cj compj hj hgj hcj
      simpa using hbefore j cj compj hj hgj hcj
  have htup : walkOutput s ("" ++ "[" ++ Nat.repr 0 ++ "]")
      (.mk (some tc) tval tch) =
      .err (.unknownABIElementaryType (.other code)
        ("[0]" ++ "[" ++ resolvedName s k fc ++ "]")) := by
    simp only [walkOutput, ComponentValue.component, htct]
    rw [if_neg (by decide), if_neg (by decide), if_pos trivial]
    simp only [serializeTuple, hm]
    rw [if_pos trivial]
    have : ("" ++ "[" ++ Nat.repr 0 ++ "]") = "[0]" := rfl
    rw [this, hobj]
  obtain ⟨cvo, cvval, cvch⟩ := cv
  simp only [ComponentValue.component] at hac
  subst hac
  simp only [ComponentValue.children] at h0
  have harr : arrayItems s "" 0 cvch =
      .err (.unknownABIElementaryType (.other code)
        ("[0]" ++ "[" ++ resolvedName s k fc ++ "]")) := by
    apply arrayItems_err s "" cvch 0 0 _ (.mk (some tc) tval tch) h0
    · simpa using htup
    · intro j cj hj
      omega
  simp only [SerializeInterfaceCtx, walkOutput, ComponentValue.component]
  rcases hact with h | h <;>
  · simp only [h]
    rw [if_neg (by decide), if_pos (by decide)]
    simp only [serializeArray, harr]

/-- C9 witness: a one-element dynamic array of a one-field tuple whose field
`balance` has unknown elementary kind 99; the error breadcrumb is
`[0][balance]`. -/
theorem c9_array_of_tuples_breadcrumb_witness :
    SerializeInterfaceCtx NewSerializer
        (.mk (some ⟨DynamicArrayComponent, .other 0, "", "t[]"⟩) .null
          [.mk (some ⟨TupleComponent, .other 0, "", "t"⟩) .null
            [.mk (some ⟨ElementaryComponent, .other 99, "balance", "weird"⟩)
              .null []]]) =
      .err (.unknownABIElementaryType (.other 99) "[0][balance]") := by
  have h := c9_array_of_tuples_breadcrumb NewSerializer
    (.mk (some ⟨DynamicArrayComponent, .other 0, "", "t[]"⟩) .null
      [.mk (some ⟨TupleComponent, .other 0, "", "t"⟩) .null
        [.mk (some ⟨ElementaryComponent, .other 99, "balance", "weird"⟩)
          .null []]])
    (.mk (some ⟨TupleComponent, .other 0, "", "t"⟩) .null
      [.mk (some ⟨ElementaryComponent, .other 99, "balance", "weird"⟩)
        .null []])
    (.mk (some ⟨ElementaryComponent, .other 99, "balance", "weird"⟩) .null [])
    ⟨DynamicArrayComponent, .other 0, "", "t[]"⟩
    ⟨TupleComponent, .other 0, "", "t"⟩
    ⟨ElementaryComponent, .other 99, "balance", "weird"⟩
    0 99 rfl (Or.inr rfl) rfl rfl rfl rfl rfl rfl rfl rfl
    (by intro j cj compj hj; omega)
  simpa [resolvedName] using h

/-! ## Claim C1 -/

/-- C1 counterexample: an elementary node declared `Int` whose decoded value
is a string does not produce a typed error — the unchecked type assertion
`cv.Value.(*big.Int)` makes the walk end in an uncontrolled runtime fault. -/
theorem c1_counterexample :
    walkOutput NewSerializer ""
        (.mk (some ⟨ElementaryComponent, .int, "x", "int256"⟩) (.str "oops") []) =
      .crash "interface conversion" := by
  simp only [walkOutput, serializeElementaryType, ComponentValue.component,
    ComponentValue.value, ElementaryComponent]
  rfl

/-- C1 amended: whenever the decoded value's dynamic shape does not match
what the declared (recognised) elementary kind's type assertion requires,
the elementary encoder ends in the modelled runtime fault (`crash`), never
in a typed error and never in a value. -/
theorem c1_mismatch_crashes (s : Serializer) (brd : String) (comp : Component)
    (val : GoValue) (ch : List ComponentValue)
    (h : kindShapeOK comp.elementaryType val = false) :
    serializeElementaryType s brd (.mk (some comp) val ch) =
      .crash "interface conversion" := by
  obtain ⟨ct, et, kn, tss⟩ := comp
  cases et <;> cases val <;>
    simp_all [serializeElementaryType, kindShapeOK, ComponentValue.component,
      ComponentValue.value]

/-- C1 amended-claim witness: kind `Bool` with a byte-slice value. -/
theorem c1_mismatch_crashes_witness :
    serializeElementaryType NewSerializer ""
        (.mk (some ⟨ElementaryComponent, .bool, "", "bool"⟩) (.bytes []) []) =
      .crash "interface conversion" :=
  c1_mismatch_crashes _ _ _ _ _ rfl

/-! ## Claim C4 -/

/-- C4 counterexample: the elementary `Bool` encoder maps the decoded
integer `2^64 + 1` to `true`, although the claim requires every integer
other than `1` (including values of arbitrarily large magnitude) to encode
to `false`.  The Go code compares `Int64()` — the wrapped low 64 bits — with
`1`. -/
theorem c4_counterexample :
    walkOutput NewSerializer ""
        (.mk (some ⟨ElementaryComponent, .bool, "", "bool"⟩)
          (.int 18446744073709551617) []) =
      .ok (.bool true) := by
  simp only [walkOutput, serializeElementaryType, ComponentValue.component,
    ComponentValue.value, ElementaryComponent]
  norm_num [goBigIntInt64, wrapInt64]

/-- C4 amended: the `Bool` encoding is `true` exactly when the sign-applied
low-64-bit (two's-complement) reinterpretation of the decoded integer equals
`1`; for `|i| < 2^63` — in particular for `0`, `2`, `-1` — this coincides
with `i = 1`. -/
theorem c4_bool_encoding (s : Serializer) (brd : String) (comp : Component)
    (ch : List ComponentValue) (i : Int) (hk : comp.elementaryType = .bool) :
    serializeElementaryType s brd (.mk (some comp) (.int i) ch) =
      .ok (.bool (goBigIntInt64 i == 1)) ∧
    (i.natAbs < 2 ^ 63 → ((goBigIntInt64 i == 1) = true ↔ i = 1)) := by
  obtain ⟨ct, et, kn, tss⟩ := comp
  simp only at hk
  subst hk
  constructor
  · simp [serializeElementaryType, ComponentValue.component, ComponentValue.value]
  · intro h
    rw [goBigIntInt64_of_small i h]
    simp

/-- C4 amended-claim witness: value `2` encodes to `false`. -/
theorem c4_bool_encoding_witness :
    serializeElementaryType NewSerializer ""
        (.mk (some ⟨ElementaryComponent, .bool, "", "bool"⟩) (.int 2) []) =
      .ok (.bool false) := by
  rw [(c4_bool_encoding NewSerializer ""
    ⟨ElementaryComponent, .bool, "", "bool"⟩ [] 2 rfl).1]
  rfl

/-! ## Claim C3 -/

theorem sdaItems_ok (s : Serializer) (brd : String) :
    ∀ (cs : List ComponentValue) (i0 : Nat) (xs : List JsonValue),
      sdaItems s brd i0 cs = .ok xs →
      xs.length = cs.length ∧
      ∀ k ck, cs[k]? = some ck → ∃ compk m v,
        ck.component = some compk ∧
        xs[k]? = some (.obj m) ∧
        lookupKV m "name" = some (.str (resolvedName s (i0 + k) compk)) ∧
        lookupKV m "type" = some (.str compk.typeString) ∧
        walkOutput s (brd ++ "[" ++ resolvedName s (i0 + k) compk ++ "]") ck =
          .ok v ∧
        lookupKV m "value" = some v := by
  intro cs
  induction cs with
  | nil =>
    intro i0 xs hok
    simp only [sdaItems] at hok
    injection hok with hxs
    subst hxs
    refine ⟨rfl, ?_⟩
    intro k ck hget
    simp at hget
  | cons c rest ih =>
    intro i0 xs hok
    match hcc : c.component with
    | none =>
      rw [sdaItems_cons_none s brd i0 c rest hcc] at hok
      cases hok
    | some comp =>
      rw [sdaItems_cons_some s brd i0 c rest comp hcc] at hok
      cases hwalk : walkOutput s (brd ++ "[" ++ resolvedName s i0 comp ++ "]") c with
      | ok v =>
        rw [hwalk] at hok
        cases hrest : sdaItems s brd (i0 + 1) rest with
        | ok xs2 =>
          rw [hrest] at hok
          injection hok with hxs
          subst hxs
          obtain ⟨hlen, hidx⟩ := ih (i0 + 1) xs2 hrest
          refine ⟨by simp [hlen], ?_⟩
          intro k ck hget
          match k with
          | 0 =>
            rw [List.getElem?_cons_zero] at hget
            injection hget with hck
            subst hck
            refine ⟨comp, _, v, hcc, List.getElem?_cons_zero, ?_, ?_, ?_, ?_⟩
            · simp [lookupKV, Nat.add_zero]
            · simp [lookupKV]
            · rw [Nat.add_zero]
              exact hwalk
            · simp [lookupKV]
          | k2 + 1 =>
            rw [List.getElem?_cons_succ] at hget
            obtain ⟨compk, m, w, h1, h2, h3, h4, h5, h6⟩ := hidx k2 ck hget
            refine ⟨compk, m, w, h1, by rwa [List.getElem?_cons_succ], ?_, h4, ?_, h6⟩
            · rwa [show i0 + 1 + k2 = i0 + (k2 + 1) from by omega] at h3
            · rwa [show i0 + 1 + k2 = i0 + (k2 + 1) from by omega] at h5
        | err e =>
          rw [hrest] at hok
          cases hok
        | crash m =>
          rw [hrest] at hok
          cases hok
      | err e =>
        rw [hwalk] at hok
        cases hok
      | crash m =>
        rw [hwalk] at hok
        cases hok

/-- C3: in SelfDescribingArrays mode, a successful tuple encoding is an
ordered array, one element per child in child order, and each element is an
object whose `name` entry is the declared field name (or the generated
default when the declared name is empty), whose `type` entry is the child
descriptor's canonical type signature, and whose `value` entry is the walked
child value.  Every child of a successful encoding necessarily has a non-nil
descriptor (a nil descriptor makes the walk fail, so it never yields
output). -/
theorem c3_self_describing_tuple (s : Serializer) (brd : String)
    (cv : ComponentValue) (out : JsonValue)
    (hm : s.ts = FormatAsSelfDescribingArrays)
    (hok : serializeTuple s brd cv = .ok out) :
    ∃ xs, out = .arr xs ∧ xs.length = cv.children.length ∧
      ∀ k ck, cv.children[k]? = some ck → ∃ comp m v,
        ck.component = some comp ∧
        xs[k]? = some (.obj m) ∧
        lookupKV m "name" = some (.str (resolvedName s k comp)) ∧
        lookupKV m "type" = some (.str comp.typeString) ∧
        walkOutput s (brd ++ "[" ++ resolvedName s k comp ++ "]") ck = .ok v ∧
        lookupKV m "value" = some v := by
  obtain ⟨co, val, children⟩ := cv
  simp only [serializeTuple, hm] at hok
  rw [if_neg (by decide), if_neg (by decide), if_pos trivial] at hok
  cases hsda : sdaItems s brd 0 children with
  | ok xs =>
    rw [hsda] at hok
    injection hok with hout
    subst hout
    obtain ⟨hlen, hidx⟩ := sdaItems_ok s brd children 0 xs hsda
    refine ⟨xs, rfl, by simpa [ComponentValue.children] using hlen, ?_⟩
    intro k ck hget
    simp only [ComponentValue.children] at hget
    simpa using hidx k ck hget
  | err e =>
    rw [hsda] at hok
    cases hok
  | crash m =>
    rw [hsda] at hok
    cases hok

/-- C3 witness: a two-field tuple (`a` declared, second name empty) in
self-describing mode; the second element's `name` falls back to the decimal
index `1`. -/
theorem c3_self_describing_tuple_witness :
    ∃ xs, JsonValue.arr
        [.obj [("name", .str "a"), ("type", .str "uint256"), ("value", .str "1")],
         .obj [("name", .str "1"), ("type", .str "uint256"), ("value", .str "2")]] =
        .arr xs ∧
      xs.length = (ComponentValue.mk
        (some ⟨TupleComponent, .other 0, "", "(uint256,uint256)"⟩) .null
        [.mk (some ⟨ElementaryComponent, .uint, "a", "uint256"⟩) (.int 1) [],
         .mk (some ⟨ElementaryComponent, .uint, "", "uint256"⟩) (.int 2) []]).children.length ∧
      ∀ k ck, (ComponentValue.mk
          (some ⟨TupleComponent, .other 0, "", "(uint256,uint256)"⟩) .null
          [.mk (some ⟨ElementaryComponent, .uint, "a", "uint256"⟩) (.int 1) [],
           .mk (some ⟨ElementaryComponent, .uint, "", "uint256"⟩) (.int 2) []]).children[k]? =
          some ck → ∃ comp m v,
        ck.component = some comp ∧
        xs[k]? = some (.obj m) ∧
        lookupKV m "name" =
          some (.str (resolvedName { NewSerializer with
            ts := FormatAsSelfDescribingArrays } k comp)) ∧
        lookupKV m "type" = some (.str comp.typeString) ∧
        walkOutput { NewSerializer with ts := FormatAsSelfDescribingArrays }
          ("" ++ "[" ++ resolvedName { NewSerializer with
            ts := FormatAsSelfDescribingArrays } k comp ++ "]") ck = .ok v ∧
        lookupKV m "value" = some v := by
  have h := c3_self_describing_tuple
    { NewSerializer with ts := FormatAsSelfDescribingArrays } ""
    (.mk (some ⟨TupleComponent, .other 0, "", "(uint256,uint256)"⟩) .null
      [.mk (some ⟨ElementaryComponent, .uint, "a", "uint256"⟩) (.int 1) [],
       .mk (some ⟨ElementaryComponent, .uint, "", "uint256"⟩) (.int 2) []])
    (.arr
      [.obj [("name", .str "a"), ("type", .str "uint256"), ("value", .str "1")],
       .obj [("name", .str "1"), ("type", .str "uint256"), ("value", .str "2")]])
    rfl
    (by
      simp only [serializeTuple, sdaItems, walkOutput, serializeElementaryType,
        NewSerializer, ComponentValue.component, ComponentValue.value,
        ComponentValue.children, insertKV, lookupKV,
        Base10StringIntSerializer, bigIntString, FormatAsObjects,
        FormatAsFlatArrays, FormatAsSelfDescribingArrays,
        ElementaryComponent, TupleComponent, NumericDefaultNameGenerator]
      rfl)
  exact h

/-! ## Claim C6 -/

theorem objectItems_lookup (s : Serializer) (brd : String) :
    ∀ (cs : List ComponentValue) (i0 : Nat)
      (acc m : List (String × JsonValue)),
      objectItems s brd i0 cs acc = .ok m →
      ∀ name, lookupKV m name =
        (match objSpecLookup s brd i0 cs name with
         | some v => some v
         | none => lookupKV acc name) := by
  intro cs
  induction cs with
  | nil =>
    intro i0 acc m hok name
    simp only [objectItems] at hok
    injection hok with hm
    subst hm
    simp [objSpecLookup]
  | cons c rest ih =>
    intro i0 acc m hok name
    match hcc : c.component with
    | none =>
      simp only [objectItems, hcc] at hok
      have := ih (i0 + 1) acc m hok name
      rw [this]
      simp only [objSpecLookup, hcc]
      cases objSpecLookup s brd (i0 + 1) rest name <;> simp
    | some comp =>
      simp only [objectItems, hcc] at hok
      cases hwalk : walkOutput s
          (brd ++ "[" ++ (if comp.keyName = "" then s.dn i0 else comp.keyName)
            ++ "]") c with
      | ok v =>
        rw [hwalk] at hok
        have := ih (i0 + 1)
          (insertKV acc (if comp.keyName = "" then s.dn i0 else comp.keyName) v)
          m hok name
        rw [this]
        simp only [objSpecLookup, hcc]
        have hrn : resolvedName s i0 comp =
            (if comp.keyName = "" then s.dn i0 else comp.keyName) := rfl
        cases objSpecLookup s brd (i0 + 1) rest name with
        | some w => simp
        | none =>
          simp only
          rw [lookupKV_insertKV]
          rw [hrn]
          by_cases hname : (if comp.keyName = "" then s.dn i0 else comp.keyName)
            = name
          · rw [if_pos hname, if_pos hname]
            rw [hname] at hwalk
            rw [hwalk]
          · rw [if_neg hname, if_neg hname]
      | err e =>
        rw [hwalk] at hok
        cases hok
      | crash m2 =>
        rw [hwalk] at hok
        cases hok

theorem objectItems_ok_of_children_ok (s : Serializer) (brd : String) :
    ∀ (cs : List ComponentValue) (i0 : Nat)
      (acc : List (String × JsonValue)),
      (∀ k ck compk, cs[k]? = some ck → ck.component = some compk →
        ∃ v, walkOutput s (brd ++ "[" ++ resolvedName s (i0 + k) compk ++ "]")
          ck = .ok v) →
      ∃ m, objectItems s brd i0 cs acc = .ok m := by
  intro cs
  induction cs with
  | nil =>
    intro i0 acc hch
    exact ⟨acc, by simp [objectItems]⟩
  | cons c rest ih =>
    intro i0 acc hch
    have hnext : ∀ k ck compk, rest[k]? = some ck → ck.component = some compk →
        ∃ v, walkOutput s
          (brd ++ "[" ++ resolvedName s (i0 + 1 + k) compk ++ "]") ck = .ok v := by
      intro k ck compk hget hcomp
      rw [show i0 + 1 + k = i0 + (k + 1) from by omega]
      exact hch (k + 1) ck compk (by rwa [List.getElem?_cons_succ]) hcomp
    match hcc : c.component with
    | none =>
      obtain ⟨m, hm⟩ := ih (i0 + 1) acc hnext
      exact ⟨m, by simp only [objectItems, hcc]; exact hm⟩
    | some comp =>
      obtain ⟨v, hv⟩ := hch 0 c comp List.getElem?_cons_zero hcc
      rw [Nat.add_zero] at hv
      obtain ⟨m, hm⟩ := ih (i0 + 1)
        (insertKV acc (resolvedName s i0 comp) v) hnext
      refine ⟨m, ?_⟩
      simp only [objectItems, hcc, resolvedName] at hv hm ⊢
      rw [hv]
      exact hm

/-- C6: in Objects mode a successful tuple encoding is a mapping whose
lookup at every name agrees with `objSpecLookup`: each child with a non-nil
descriptor is inserted under its resolved name (declared name, or
`DefaultName(index)` when empty), nil-descriptor children are absent, and
when two resolved names collide the later child wins.  Moreover collisions
and nil descriptors never cause an error: whenever every non-nil child walks
successfully, the tuple encoding succeeds with a mapping. -/
theorem c6_objects_tuple (s : Serializer) (brd : String) (cv : ComponentValue)
    (hm : s.ts = FormatAsObjects) :
    (∀ out, serializeTuple s brd cv = .ok out →
      ∃ m, out = .obj m ∧
        ∀ name, lookupKV m name = objSpecLookup s brd 0 cv.children name) ∧
    ((∀ k ck compk, cv.children[k]? = some ck → ck.component = some compk →
        ∃ v, walkOutput s (brd ++ "[" ++ resolvedName s k compk ++ "]") ck =
          .ok v) →
      ∃ m, serializeTuple s brd cv = .ok (.obj m)) := by
  obtain ⟨co, val, children⟩ := cv
  simp only [ComponentValue.children]
  constructor
  · intro out hok
    simp only [serializeTuple, hm] at hok
    rw [if_pos trivial] at hok
    cases hobj : objectItems s brd 0 children [] with
    | ok m =>
      rw [hobj] at hok
      injection hok with hout
      subst hout
      refine ⟨m, rfl, ?_⟩
      intro name
      rw [objectItems_lookup s brd children 0 [] m hobj name]
      cases objSpecLookup s brd 0 children name <;> simp [lookupKV]
    | err e =>
      rw [hobj] at hok
      cases hok
    | crash m2 =>
      rw [hobj] at hok
      cases hok
  · intro hch
    obtain ⟨m, hmk⟩ := objectItems_ok_of_children_ok s brd children 0 []
      (by intro k ck compk hget hcomp; simpa using hch k ck compk hget hcomp)
    refine ⟨m, ?_⟩
    simp only [serializeTuple, hm]
    rw [if_pos trivial, hmk]

/-- C6 witness: a tuple whose first child is declared `1`, whose second child
has an empty name resolving to the generated default `1` (a collision, won
by the later child), and whose third child has a nil descriptor (skipped);
the encoding succeeds with the later child's value under `1`. -/
theorem c6_objects_tuple_witness :
    ∃ m, JsonValue.obj [("1", JsonValue.str "20")] = .obj m ∧
      ∀ name, lookupKV m name = objSpecLookup NewSerializer "" 0
        [.mk (some ⟨ElementaryComponent, .uint, "1", "uint256"⟩) (.int 10) [],
         .mk (some ⟨ElementaryComponent, .uint, "", "uint256"⟩) (.int 20) [],
         .mk none .null []] name := by
  have h := (c6_objects_tuple NewSerializer ""
    (.mk (some ⟨TupleComponent, .other 0, "", "(uint256,uint256)"⟩) .null
      [.mk (some ⟨ElementaryComponent, .uint, "1", "uint256"⟩) (.int 10) [],
       .mk (some ⟨ElementaryComponent, .uint, "", "uint256"⟩) (.int 20) [],
       .mk none .null []]) rfl).1 (.obj [("1", .str "20")])
    (by
      simp only [serializeTuple, objectItems, walkOutput,
        serializeElementaryType, NewSerializer, ComponentValue.component,
        ComponentValue.value, ComponentValue.children, insertKV, lookupKV,
        Base10StringIntSerializer, bigIntString, FormatAsObjects,
        ElementaryComponent, TupleComponent, NumericDefaultNameGenerator]
      rfl)
  simpa [ComponentValue.children] using h

/-! ## Claim C5 -/

/-- C5: an `Address` node reinterprets the decoded integer's magnitude as a
20-byte big-endian, zero-left-padded array (the array has length 20 and its
big-endian value is the integer's magnitude); without an address strategy
the result is the byte strategy on those 20 raw bytes, and with one it is
the address strategy on the same array. -/
theorem c5_address_encoding (s : Serializer) (brd : String) (comp : Component)
    (i : Int) (ch : List ComponentValue) (hk : comp.elementaryType = .address)
    (hfit : i.natAbs < 2 ^ 160) :
    ((beBytes 20 i.natAbs).length = 20 ∧
      (beBytes 20 i.natAbs).foldl (fun a b => a * 256 + b) 0 = i.natAbs) ∧
    (s.ad = none →
      serializeElementaryType s brd (.mk (some comp) (.int i) ch) =
        .ok (s.bs (beBytes 20 i.natAbs))) ∧
    (∀ ad, s.ad = some ad →
      serializeElementaryType s brd (.mk (some comp) (.int i) ch) =
        .ok (ad (beBytes 20 i.natAbs))) := by
  obtain ⟨ct, et, kn, tss⟩ := comp
  simp only at hk
  subst hk
  refine ⟨⟨beBytes_length 20 i.natAbs, ?_⟩, ?_, ?_⟩
  · have h20 : (256 : Nat) ^ 20 = 2 ^ 160 := by norm_num
    have := beBytes_foldl 20 i.natAbs 0 (by rw [h20]; exact hfit)
    simpa using this
  · intro had
    simp [serializeElementaryType, ComponentValue.component,
      ComponentValue.value, hfit, had]
    norm_num at hfit ⊢
    exact hfit
  · intro ad had
    simp [serializeElementaryType, ComponentValue.component,
      ComponentValue.value, hfit, had]
    norm_num at hfit ⊢
    exact hfit

/-- C5 witness: the default serializer (no address strategy) hex-encodes the
20 zero-padded bytes of the value 255. -/
theorem c5_address_encoding_witness :
    serializeElementaryType NewSerializer ""
        (.mk (some ⟨ElementaryComponent, .address, "", "address"⟩) (.int 255) []) =
      .ok (NewSerializer.bs (beBytes 20 (255 : Int).natAbs)) :=
  (c5_address_encoding NewSerializer ""
    ⟨ElementaryComponent, .address, "", "address"⟩ 255 [] rfl
    (by norm_num)).2.1 rfl

end Abi
